import Mathlib

/-!
Verification of the `hj` compiler front end (lexer, parser, semantic
analyzer) against its specification.  The Rust sources under `src/` are
shallowly embedded below: strings are lists of characters, fallible code
returns an explicit result type, and the in-place mutation of the type
slots performed by the analyzer is modelled by returning the updated tree.
-/

namespace Hj

/-- Result of running a piece of the Rust pipeline.
`ok` and `err` embed Rust's `Result<_, String>`; `panicRes` marks a Rust
panic (a failed `unwrap`); `nofuel` is an artifact of the fuel-based
embedding of recursion and is unreachable for sufficiently large fuel. -/
inductive Res (α : Type) where
  | ok (val : α) : Res α
  | err (msg : String) : Res α
  | panicRes : Res α
  | nofuel : Res α
deriving DecidableEq, Repr

/-- `Result`-style propagation used by the Rust `?` operator and by
`match`es that forward errors. -/
def rbind {α β : Type} : Res α → (α → Res β) → Res β
  | .ok a, k => k a
  | .err m, _ => .err m
  | .panicRes, _ => .panicRes
  | .nofuel, _ => .nofuel

/-- UTF-8 byte length of a character sequence.  Rust's `String::len`
(used as `token.value.len()` in `create_tokens`) counts bytes, while
`Chars::next` (used by `advance`) steps one character; the mismatch
between the two is observable behavior of the lexer. -/
def utf8Len (cs : List Char) : Nat :=
  (cs.map Char.utf8Size).sum

/-- Token kinds, from `lexer.rs` `TokenType`. -/
inductive TokenType where
  | Operator
  | AssignmentOperator
  | OpenParen
  | CloseParen
  | OpenBracket
  | CloseBracket
  | OpenBrace
  | CloseBrace
  | Comma
  | InbuiltType
  | Name
  | NumberLiteral
  | StringLiteral
  | CharLiteral
  | BoolLiteral
  | Semicolon
  | Keyword
deriving DecidableEq, Repr

/-- A token, from `lexer.rs` `Token` (`kind` plus raw text `value`). -/
structure Token where
  kind : TokenType
  value : List Char
deriving DecidableEq, Repr

/-- `INBUILT_TYPES` from `lexer.rs`. -/
def INBUILT_TYPES : List (List Char) :=
  ["int".data, "uint".data, "float".data, "ufloat".data, "bool".data,
   "char".data, "str".data]

/-- `KEYWORDS` from `lexer.rs`. -/
def KEYWORDS : List (List Char) :=
  ["let".data, "if".data, "else".data, "while".data]

/-- `BOOL_LITERALS` from `lexer.rs`. -/
def BOOL_LITERALS : List (List Char) :=
  ["true".data, "false".data]

/-- `Tokenizer::peek_name`: the longest prefix of ASCII alphanumeric or
underscore characters from the current position. -/
def peekName (cs : List Char) : List Char :=
  cs.takeWhile (fun c => c.isAlphanum || c = '_')

/-- `Tokenizer::peek_number`: the longest prefix of ASCII digits and dots
from the current position. -/
def peekNumber (cs : List Char) : List Char :=
  cs.takeWhile (fun c => c.isDigit || c = '.')

/-- `Tokenizer::peek_until`: skip `offset` characters, then collect
characters up to (excluding) the first occurrence of `searched`; on end
of input, succeed iff `orEof`.  Returns `none` where the Rust method
returns `None`. -/
def peekUntil (searched : Char) (offset : Nat) (orEof : Bool)
    (cs : List Char) : Option (List Char) :=
  if offset ≤ cs.length then
    let rest := cs.drop offset
    let taken := rest.takeWhile (fun c => c ≠ searched)
    if searched ∈ rest ∨ orEof then some taken else none
  else
    none

/-- One step of `Tokenizer::next_token`, described as an instruction to
the `create_tokens` loop.  `next_token` itself advances the character
cursor only in its whitespace and comment branches; those advances are
reported here (`wsStep` consumes one character, `commentStep adv` is the
`advance(comment.len()+2).unwrap()` call, with `adv` a byte count) and
executed by the loop, which keeps the embedding purely functional. -/
inductive LexStep where
  | panicStep : LexStep
  | errStep (msg : String) : LexStep
  | wsStep : LexStep
  | commentStep (adv : Nat) : LexStep
  | tokStep (t : Token) : LexStep
deriving DecidableEq, Repr

/-- `Tokenizer::next_token` on the character stream `c :: rest`
(`next_token` is only reached when the stream is nonempty, so the head
character `c` — Rust's `first_char = self.peek(1).unwrap()` — is taken
as a separate argument). -/
def nextToken (c : Char) (rest : List Char) : LexStep :=
  if c = ' ' ∨ c = '\n' ∨ c = '\t' then
    .wsStep
  else if c = '(' then .tokStep ⟨.OpenParen, [c]⟩
  else if c = ')' then .tokStep ⟨.CloseParen, [c]⟩
  else if c = '[' then .tokStep ⟨.OpenBracket, [c]⟩
  else if c = ']' then .tokStep ⟨.CloseBracket, [c]⟩
  else if c = '\x7b' then .tokStep ⟨.OpenBrace, [c]⟩
  else if c = '\x7d' then .tokStep ⟨.CloseBrace, [c]⟩
  else if c = ',' then .tokStep ⟨.Comma, [c]⟩
  else if c = ';' then .tokStep ⟨.Semicolon, [c]⟩
  else if c = '=' then .tokStep ⟨.AssignmentOperator, [c]⟩
  else if c = '+' ∨ c = '-' ∨ c = '*' ∨ c = '/' ∨ c = '%' then
    -- `self.peek(2).unwrap_or(' ')`
    if c = '/' ∧ rest.head?.getD ' ' = '/' then
      match peekUntil '\n' 2 true (c :: rest) with
      | some comment => .commentStep (utf8Len comment + 2)
      | none => .panicStep
    else if rest.head?.getD ' ' = '=' then
      .tokStep ⟨.AssignmentOperator, c :: rest.take 1⟩
    else
      .tokStep ⟨.Operator, [c]⟩
  else if c = '\'' then
    match peekUntil '\'' 1 false (c :: rest) with
    | some contents => .tokStep ⟨.CharLiteral, '\'' :: contents ++ ['\'']⟩
    | none => .errStep "Unexpected EOF (you have to close the ' character literal!)"
  else if c = '"' then
    match peekUntil '"' 1 false (c :: rest) with
    | some contents => .tokStep ⟨.StringLiteral, '"' :: contents ++ ['"']⟩
    | none => .errStep "Unexpected EOF (you have to close the \" string literal!)"
  else if c.isDigit then
    let num := peekNumber (c :: rest)
    if (num.filter (fun x => x = '.')).length ≤ 1 ∧
        num.head? ≠ some '.' ∧ num.getLast? ≠ some '.' then
      .tokStep ⟨.NumberLiteral, peekNumber (c :: rest)⟩
    else
      .errStep "Invalid number syntax!"
  else if c.isAlpha then
    let name := peekName (c :: rest)
    if name ∈ KEYWORDS then .tokStep ⟨.Keyword, name⟩
    else if name ∈ INBUILT_TYPES then .tokStep ⟨.InbuiltType, name⟩
    else if name ∈ BOOL_LITERALS then .tokStep ⟨.BoolLiteral, name⟩
    else .tokStep ⟨.Name, name⟩
  else
    .errStep ("Unexpected character '" ++ String.mk [c] ++ "'!")

/-- The `create_tokens` loop, with explicit fuel (one unit per loop
iteration; every iteration consumes at least one character, so fuel
exceeding the character count never runs out).  After a token is built
the loop runs `advance(token.value.len()).unwrap()`: it steps the
character cursor by the *byte* length `n` of the token text, and the
failing `unwrap` (fewer than `n` characters remain) is a panic.  Since
`n ≥ 1` in every branch, advancing `n` from `c :: rest` is dropping
`n - 1` from `rest`, which succeeds iff `n - 1 ≤ rest.length`. -/
def tokensLoopF : Nat → List Char → List Token → Res (List Token)
  | 0, _, _ => .nofuel
  | _ + 1, [], acc => .ok acc
  | f + 1, c :: rest, acc =>
    match nextToken c rest with
    | .panicStep => .panicRes
    | .errStep m => .err m
    | .wsStep => tokensLoopF f rest acc
    | .commentStep adv =>
      if adv - 1 ≤ rest.length then
        tokensLoopF f (rest.drop (adv - 1)) acc
      else
        .panicRes
    | .tokStep t =>
      if utf8Len t.value - 1 ≤ rest.length then
        tokensLoopF f (rest.drop (utf8Len t.value - 1)) (acc ++ [t])
      else
        .panicRes

/-- `create_tokens` from `lexer.rs`. -/
def createTokens (source : List Char) : Res (List Token) :=
  tokensLoopF (source.length + 1) source []

/-- `Operator` from `nodes.rs` (the identical private copy in `parser.rs`
is the one the parser instantiates). -/
inductive Operator where
  | Plus
  | Minus
  | Multiply
  | Divide
  | Modulo
deriving DecidableEq, Repr

/-- `Operator::from`.  The Rust function panics on text outside
`+ - * / %`; that is the `none` case, turned into `Res.panicRes` by the
callers. -/
def operatorFrom : List Char → Option Operator
  | ['+'] => some .Plus
  | ['-'] => some .Minus
  | ['*'] => some .Multiply
  | ['/'] => some .Divide
  | ['%'] => some .Modulo
  | _ => none

/-- `Operator::priority_score`. -/
def priorityScore : Operator → Nat
  | .Plus | .Minus => 1
  | .Multiply | .Divide | .Modulo => 2

/-- `Operator::to_str`, as the single character it always returns
(`+ - * / %`); the lexer builds a compound assignment token as this
character followed by `=`. -/
def opChar : Operator → Char
  | .Plus => '+'
  | .Minus => '-'
  | .Multiply => '*'
  | .Divide => '/'
  | .Modulo => '%'

/-- `Type` from `nodes.rs` (named `Ty` because `Type` is reserved in
Lean). -/
inductive Ty where
  | Int
  | Float
  | Bool
  | Char
  | Str
deriving DecidableEq, Repr

/-- `Type::from`.  Panics (here: `none`) on any name outside the closed
set — in particular on the lexically recognized `uint` and `ufloat`. -/
def typeFrom : List Char → Option Ty
  | ['i', 'n', 't'] => some .Int
  | ['f', 'l', 'o', 'a', 't'] => some .Float
  | ['b', 'o', 'o', 'l'] => some .Bool
  | ['c', 'h', 'a', 'r'] => some .Char
  | ['s', 't', 'r'] => some .Str
  | _ => none

/-- `Type::to_str`. -/
def tyStr : Ty → String
  | .Int => "int"
  | .Float => "float"
  | .Bool => "bool"
  | .Char => "char"
  | .Str => "str"

mutual

/-- `TExpressionNode` from `nodes.rs`: an expression together with its
mutable, initially-absent type slot `t`.  The node types that the parser
declares privately in `parser.rs` are field-for-field identical except
that they lack the slot; following spec §3, the parser's output is read
as these wrapped nodes with every slot still absent (`none`). -/
inductive TExpressionNode where
  | mk (node : ExpressionNode) (t : Option Ty) : TExpressionNode

/-- `ExpressionNode` from `nodes.rs`.  `VariableNode`/`FunctionNode`
wrappers that hold only a `name` are inlined as the name itself. -/
inductive ExpressionNode where
  | BinaryOperationNode (left_expr : TExpressionNode) (operator : Operator)
      (right_expr : TExpressionNode) : ExpressionNode
  | UnaryOperationNode (operator : Operator)
      (expression : TExpressionNode) : ExpressionNode
  | VariableNode (name : List Char) : ExpressionNode
  | IntLiteralNode (value : Int) : ExpressionNode
  | FloatLiteralNode (text : List Char) : ExpressionNode
  | BoolLiteralNode (value : Bool) : ExpressionNode
  | StringLiteralNode (value : List Char) : ExpressionNode
  | CharLiteralNode (value : Char) : ExpressionNode
  | FunctionCallNode (function : List Char)
      (args : List TExpressionNode) : ExpressionNode

end

/-- The type slot of a wrapped expression node. -/
def TExpressionNode.slot : TExpressionNode → Option Ty
  | .mk _ t => t

/-- `VariableDefinitionNode` from `nodes.rs`. -/
structure VariableDefinitionNode where
  vtype : Option (List Char)
  variable_name : List Char
  expression : Option TExpressionNode

/-- `VariableAssignmentNode` from `nodes.rs`. -/
structure VariableAssignmentNode where
  variable_name : List Char
  expression : TExpressionNode

/-- `FunctionCallNode` (command position) from `nodes.rs`. -/
structure FunctionCallNode where
  function : List Char
  args : List TExpressionNode

/-- `CommandNode` from `nodes.rs`. -/
inductive CommandNode where
  | VariableDefinitionNode (node : VariableDefinitionNode) : CommandNode
  | VariableAssignmentNode (node : VariableAssignmentNode) : CommandNode
  | FunctionCallNode (node : FunctionCallNode) : CommandNode

/-- `ScopeNode` from `nodes.rs`: the ordered command list of the one
whole-program scope. -/
structure ScopeNode where
  commands : List CommandNode

/-- The integer value of a digit-only number literal
(`value.parse::<i64>().unwrap()` in `parse_single_value`; the literals in
every claim are far below the `i64` range, whose overflow panic is not
modelled). -/
def intFromDigits (cs : List Char) : Int :=
  cs.foldl (fun n c => n * 10 + ((c.toNat : Int) - ('0'.toNat : Int))) 0

/-- Rust `str::trim_matches('"')`: strip all leading and trailing quote
characters (used on string-literal token text). -/
def trimQuotes (cs : List Char) : List Char :=
  ((cs.dropWhile (fun c => c = '"')).reverse.dropWhile
    (fun c => c = '"')).reverse

/-- Quote a token's text inside an error message, as the Rust
`format!("...\"{}\"...")` calls do. -/
def quoted (cs : List Char) : String :=
  "\"" ++ String.mk cs ++ "\""

/-- The mutually recursive expression-parsing procedures of `parser.rs`
(`parse_single_value`, `parse_binary_expression` and its inner loop,
`parse_expression` and its loop, `parse_function_call` and its argument
loop), gathered in one record so the recursion can run on explicit fuel:
`parserF (f+1)` builds each procedure from the procedures at fuel `f`.
The Rust recursion is bounded by the token count, so any larger fuel
behaves like the original. -/
structure ParserFuns where
  singleValue : List Token → Nat → Res (TExpressionNode × Nat)
  binaryExpression : List Token → TExpressionNode → Nat → Res (TExpressionNode × Nat)
  binaryLoopFn : List Token → Operator → TExpressionNode → Nat → Res (TExpressionNode × Nat)
  expression : List Token → Nat → Res (TExpressionNode × Nat)
  expressionLoopFn : List Token → TExpressionNode → Nat → Res (TExpressionNode × Nat)
  functionCall : List Token → Nat → Res (FunctionCallNode × Nat)
  argumentsLoopFn : List Token → List TExpressionNode → Nat → Res (List TExpressionNode × Nat)

/-- One level of the expression-parser recursion.  Each field transcribes
the body of its `parser.rs` function; the parser owns the fixed token
list `ts` and a cursor `idx`, and every function returns the parsed node
together with the new cursor. -/
def parserStep (p : ParserFuns) : ParserFuns where
  /- `Parser::parse_single_value` -/
  singleValue := fun ts idx =>
    match ts[idx]? with
    | none => .err "Unexpected EOF when trying to parse expression (missing value)"
    | some next_token =>
      match next_token.kind with
      | .OpenParen =>
        rbind (p.expression ts (idx + 1)) fun (value, i) =>
          -- safe because otherwise parse_expression would have errored
          match ts[i]? with
          | none => .panicRes
          | some next =>
            match next.kind with
            | .CloseParen => .ok (value, i + 1)
            | _ => .err ("Unexpected token " ++ quoted next.value ++
                " after expression (expected closing parenthesis)")
      | .Operator =>
        match operatorFrom next_token.value with
        | none => .panicRes
        | some operator =>
          match operator with
          | .Plus | .Minus =>
            rbind (p.singleValue ts (idx + 1)) fun (value, i) =>
              .ok (.mk (.UnaryOperationNode operator value) none, i)
          | _ => .err ("The operator " ++ quoted next_token.value ++
              " can't be used as a unary operator (expected value before it)")
      | .NumberLiteral =>
        if '.' ∈ next_token.value then
          .ok (.mk (.FloatLiteralNode next_token.value) none, idx + 1)
        else
          .ok (.mk (.IntLiteralNode (intFromDigits next_token.value)) none, idx + 1)
      | .BoolLiteral =>
        .ok (.mk (.BoolLiteralNode (next_token.value = "true".data)) none, idx + 1)
      | .StringLiteral =>
        .ok (.mk (.StringLiteralNode (trimQuotes next_token.value)) none, idx + 1)
      | .CharLiteral =>
        match next_token.value[1]? with
        | none => .panicRes
        | some ch => .ok (.mk (.CharLiteralNode ch) none, idx + 1)
      | .Name =>
        match ts[idx + 1]? with
        | none => .err "Unexpected EOF while parsing expression (missed a semicolon?)"
        | some second =>
          match second.kind with
          | .OpenParen =>
            -- `self.idx -= 1` then `parse_function_call`
            rbind (p.functionCall ts idx) fun (node, i) =>
              .ok (.mk (.FunctionCallNode node.function node.args) none, i)
          | _ => .ok (.mk (.VariableNode next_token.value) none, idx + 1)
      | _ => .err ("Unexpected token " ++ quoted next_token.value ++
          " while parsing expression, expected value")

  /- `Parser::parse_binary_expression`: consume the operator assumed at
  the cursor, parse one operand, then run the inner higher-priority
  absorption loop. -/
  binaryExpression := fun ts left_expr idx =>
    match ts[idx]? with
    | none => .panicRes  -- `self.next().unwrap()`
    | some op_token =>
      match operatorFrom op_token.value with
      | none => .panicRes
      | some op =>
        rbind (p.singleValue ts (idx + 1)) fun (right_expr, i) =>
          rbind (p.binaryLoopFn ts op right_expr i) fun (right_expr, i) =>
            .ok (.mk (.BinaryOperationNode left_expr op right_expr) none, i)

  /- the `loop` inside `parse_binary_expression`: while the pending token
  is an operator of strictly greater priority, absorb it into the
  right-hand side -/
  binaryLoopFn := fun ts op right_expr idx =>
    match ts[idx]? with
    | none => .err "Unexpected EOF when trying to parsing expression (missed a semicolon?)"
    | some token_after =>
      match token_after.kind with
      | .Operator =>
        match operatorFrom token_after.value with
        | none => .panicRes
        | some next_op =>
          if priorityScore next_op > priorityScore op then
            rbind (p.binaryExpression ts right_expr idx) fun (r, i) =>
              p.binaryLoopFn ts op r i
          else
            .ok (right_expr, idx)
      | _ => .ok (right_expr, idx)

  /- `Parser::parse_expression`: parse one operand, then run the outer
  loop that feeds the running expression back into
  `parse_binary_expression` as the new left operand -/
  expression := fun ts idx =>
    rbind (p.singleValue ts idx) fun (current_expression, i) =>
      p.expressionLoopFn ts current_expression i

  /- the `loop` inside `parse_expression`: stop (pushing the token back)
  on comma, closing parenthesis or semicolon; continue through operators;
  anything else is a syntax error -/
  expressionLoopFn := fun ts current_expression idx =>
    match ts[idx]? with
    | none => .err "Unexpected EOF when trying to parse expression (missed a semicolon?)"
    | some next_token =>
      match next_token.kind with
      | .Comma | .CloseParen | .Semicolon => .ok (current_expression, idx)
      | .Operator =>
        rbind (p.binaryExpression ts current_expression idx) fun (e, i) =>
          p.expressionLoopFn ts e i
      | _ => .err ("Unexpected token " ++ quoted next_token.value ++
          " while parsing expression (forgot a semicolon?)")

  /- `Parser::parse_function_call`, entered with the cursor on the
  function name; the opening parenthesis after it is skipped unchecked
  (`self.idx += 1`).  Note that the trailing semicolon is demanded here,
  in *every* context the call is parsed from. -/
  functionCall := fun ts idx =>
    match ts[idx]? with
    | none => .panicRes  -- `self.next().unwrap()`
    | some name_token =>
      let args_res : Res (List TExpressionNode × Nat) :=
        match ts[idx + 2]? with
        | none => .err "Unexpected EOF when trying to parse function call (expected closing parenthesis)"
        | some next_token =>
          match next_token.kind with
          | .CloseParen => .ok ([], idx + 3)
          | _ => p.argumentsLoopFn ts [] (idx + 2)
      rbind args_res fun (args, i) =>
        match ts[i]? with
        | none => .err "Unexpected EOF when trying to parse function call (expected semicolon)"
        | some semicolon =>
          match semicolon.kind with
          | .Semicolon => .ok (⟨name_token.value, args⟩, i + 1)
          | _ => .err ("Unexpected token " ++ quoted semicolon.value ++
              " while parsing function call (expected semicolon)")

  /- the argument `loop` inside `parse_function_call`: expressions
  separated by commas, ended by a closing parenthesis -/
  argumentsLoopFn := fun ts args idx =>
    rbind (p.expression ts idx) fun (expression, i) =>
      let args := args ++ [expression]
      match ts[i]? with
      | none => .err "Unexpected EOF when trying to parse function call (expected closing parenthesis)"
      | some next_token =>
        match next_token.kind with
        | .CloseParen => .ok (args, i + 1)
        | .Comma => p.argumentsLoopFn ts args (i + 1)
        | _ => .err ("Unexpected token " ++ quoted next_token.value ++
            " in function parameters")

/-- Out-of-fuel placeholder for every expression-parsing procedure. -/
def parserNoFuel : ParserFuns where
  singleValue := fun _ _ => .nofuel
  binaryExpression := fun _ _ _ => .nofuel
  binaryLoopFn := fun _ _ _ _ => .nofuel
  expression := fun _ _ => .nofuel
  expressionLoopFn := fun _ _ _ => .nofuel
  functionCall := fun _ _ => .nofuel
  argumentsLoopFn := fun _ _ _ => .nofuel

/-- The expression-parsing procedures at recursion depth `f`. -/
def parserF : Nat → ParserFuns
  | 0 => parserNoFuel
  | f + 1 => parserStep (parserF f)

/-- `Parser::parse_single_value` at fuel `f`. -/
def parseSingleValue (f : Nat) : List Token → Nat → Res (TExpressionNode × Nat) :=
  (parserF f).singleValue

/-- `Parser::parse_binary_expression` at fuel `f`. -/
def parseBinaryExpression (f : Nat) :
    List Token → TExpressionNode → Nat → Res (TExpressionNode × Nat) :=
  (parserF f).binaryExpression

/-- `Parser::parse_expression` at fuel `f`. -/
def parseExpression (f : Nat) : List Token → Nat → Res (TExpressionNode × Nat) :=
  (parserF f).expression

/-- `Parser::parse_function_call` at fuel `f`. -/
def parseFunctionCall (f : Nat) : List Token → Nat → Res (FunctionCallNode × Nat) :=
  (parserF f).functionCall

/-- `Parser::parse_variable_definition` (`parser.rs`), entered with the
cursor on the `let` keyword, which is skipped unchecked. -/
def parseVariableDefinition (f : Nat) (ts : List Token) (idx : Nat) :
    Res (VariableDefinitionNode × Nat) :=
  let idx := idx + 1
  let after_type : Res (Option (List Char) × Nat) :=
    match ts[idx]? with
    | none => .err "Unexpected EOF when trying to parse a variable definition (expected variable name or type)"
    | some first =>
      match first.kind with
      | .InbuiltType =>
        if idx + 1 < ts.length then .ok (some first.value, idx + 1)
        else .err "Unexpected EOF when trying to parse a variable definition (expected variable name)"
      | _ => .ok (none, idx)
  rbind after_type fun (vtype, idx) =>
    match ts[idx]? with
    | none => .err "Unexpected EOF when trying to parse a variable definition (expected variable name)"
    | some first =>
      match first.kind with
      | .Name =>
        let var_name := first.value
        match ts[idx + 1]? with
        | none => .err "Unexpected EOF when trying to parse a variable definition (expected equal sign)"
        | some aop_token =>
          match aop_token.kind with
          | .AssignmentOperator =>
            if aop_token.value = ['='] then
              rbind (parseExpression f ts (idx + 2)) fun (expression, i) =>
                match ts[i]? with
                | none => .err "Unexpected EOF when trying to parse a variable assignment (expected semicolon)"
                | some semicolon =>
                  match semicolon.kind with
                  | .Semicolon =>
                    .ok (⟨vtype, var_name, some expression⟩, i + 1)
                  | _ => .err ("Unexpected token " ++ quoted semicolon.value ++
                      " while parsing variable assignment (expected semicolon)")
            else
              .err ("Can't use special assignment operator " ++
                quoted aop_token.value ++ " for a variable definition")
          | _ => .err ("Unexpected token " ++ quoted aop_token.value ++
              " while parsing variable definition (expected variable name)")
      | _ => .err ("Unexpected token " ++ quoted first.value ++
          " while parsing variable definition (expected variable name)")

/-- `Parser::parse_variable_assignment` (`parser.rs`), entered with the
cursor on the variable name.  A compound operator `<op>=` desugars the
statement into `name = name <op> expression`; the operator is rebuilt
from the first byte of the token text (`assignment_operator.get(..1)`,
whose `unwrap` panics if the text is empty or starts with a multi-byte
character). -/
def parseVariableAssignment (f : Nat) (ts : List Token) (idx : Nat) :
    Res (VariableAssignmentNode × Nat) :=
  match ts[idx]? with
  | none => .err "Unexpected EOF when trying to parse a variable assignment (expected variable name)"
  | some name_token =>
    match name_token.kind with
    | .Name =>
      let var_name := name_token.value
      match ts[idx + 1]? with
      | none => .err "Unexpected EOF when trying to parse a variable assignment (expected equal sign)"
      | some aop_token =>
        match aop_token.kind with
        | .AssignmentOperator =>
          let expr_res : Res (TExpressionNode × Nat) :=
            if aop_token.value = ['='] then
              parseExpression f ts (idx + 2)
            else
              match aop_token.value with
              | [] => .panicRes
              | c :: _ =>
                if c.utf8Size = 1 then
                  match operatorFrom [c] with
                  | none => .panicRes
                  | some operator =>
                    rbind (parseExpression f ts (idx + 2)) fun (e, i) =>
                      .ok (.mk (.BinaryOperationNode
                        (.mk (.VariableNode var_name) none) operator e) none, i)
                else
                  .panicRes
          rbind expr_res fun (expression, i) =>
            match ts[i]? with
            | none => .err "Unexpected EOF when trying to parse a variable assignment (expected semicolon)"
            | some semicolon =>
              match semicolon.kind with
              | .Semicolon => .ok (⟨var_name, expression⟩, i + 1)
              | _ => .err ("Unexpected token " ++ quoted semicolon.value ++
                  " while parsing variable assignment (expected semicolon)")
        | _ => .err ("Unexpected token " ++ quoted aop_token.value ++
            " while parsing variable assignment (expected variable name)")
    | _ => .err ("Unexpected token " ++ quoted name_token.value ++
        " while parsing variable assignment (expected variable name)")

/-- `Parser::parse_command` (`parser.rs`): dispatch on the first token
(and, for a name, the one after it). -/
def parseCommand (f : Nat) (ts : List Token) (idx : Nat) :
    Res (CommandNode × Nat) :=
  match ts[idx]? with
  | none => .panicRes  -- `self.get(0).unwrap()`, only called with tokens left
  | some first =>
    match first.kind with
    | .Keyword =>
      if first.value = "let".data then
        rbind (parseVariableDefinition f ts idx) fun (node, i) =>
          .ok (.VariableDefinitionNode node, i)
      else
        .err ("Unexpected keyword " ++ quoted first.value ++
          ", expected a command (either a variable assignment or a function call)")
    | .Name =>
      match ts[idx + 1]? with
      | none => .err "Unexpected EOF when trying to parse a command"
      | some second =>
        match second.kind with
        | .OpenParen =>
          rbind (parseFunctionCall f ts idx) fun (node, i) =>
            .ok (.FunctionCallNode node, i)
        | .AssignmentOperator =>
          rbind (parseVariableAssignment f ts idx) fun (node, i) =>
            .ok (.VariableAssignmentNode node, i)
        | _ => .err ("Unexpected token " ++ quoted second.value ++
            " after custom name, expected a command (either a variable assignment or a function call)")
    | _ => .err ("Unexpected token " ++ quoted first.value ++
        ", expected a command (either a variable assignment or a function call)")

/-- The `while` loop of `Parser::parse`: commands until the token stream
is exhausted. -/
def parseLoopF : Nat → List Token → Nat → List CommandNode → Res ScopeNode
  | 0, _, _, _ => .nofuel
  | f + 1, ts, idx, commands =>
    if idx < ts.length then
      rbind (parseCommand f ts idx) fun (cmd, i) =>
        parseLoopF f ts i (commands ++ [cmd])
    else
      .ok ⟨commands⟩

/-- `Parser::parse` (`parser.rs`). -/
def parse (f : Nat) (ts : List Token) : Res ScopeNode :=
  parseLoopF f ts 0 []

/-- The analyzer's symbol table (`variable_table: HashMap<String, Type>`),
as an association list whose lookup takes the most recent binding, so
`insertTable` overwrites like `HashMap::insert`. -/
def Table : Type := List (List Char × Ty)

/-- `HashMap::get`. -/
def lookupTable (tbl : Table) (name : List Char) : Option Ty :=
  match tbl with
  | [] => none
  | (k, v) :: rest => if k = name then some v else lookupTable rest name

/-- `HashMap::insert` (overwriting any previous binding for the name). -/
def insertTable (tbl : Table) (name : List Char) (t : Ty) : Table :=
  (name, t) :: tbl

/-- The `.as_ref().unwrap()` reads of a filled type slot performed by the
traverser; an absent slot would be a Rust panic. -/
def getSlot : TExpressionNode → Res Ty
  | .mk _ (some t) => .ok t
  | .mk _ none => .panicRes

/-- `VariableTraverser::assign_expression_type` (`variable_traverser.rs`).
The Rust method fills the `t` slot of the node (and of its children) in
place; here the annotated node is returned instead. -/
def assignExpressionType (tbl : Table) : TExpressionNode → Res TExpressionNode
  | .mk (.VariableNode name) _ =>
    match lookupTable tbl name with
    | some t => .ok (.mk (.VariableNode name) (some t))
    | none => .err ("Usage of undefined variable " ++ quoted name ++
        " in expression!")
  | .mk (.UnaryOperationNode op sub_expression) _ =>
    rbind (assignExpressionType tbl sub_expression) fun sub =>
      rbind (getSlot sub) fun sub_type =>
        match sub_type with
        | .Int | .Float =>
          .ok (.mk (.UnaryOperationNode op sub) (some sub_type))
        | _ => .err ("Invalid type \"" ++ tyStr sub_type ++
            "\" for unary operation (must be either int or float)")
  | .mk (.BinaryOperationNode left_expr op right_expr) _ =>
    rbind (assignExpressionType tbl left_expr) fun l =>
      rbind (assignExpressionType tbl right_expr) fun r =>
        rbind (getSlot l) fun left_type =>
          rbind (getSlot r) fun right_type =>
            if (left_type ≠ .Int ∧ left_type ≠ .Float) ∨
                (right_type ≠ .Int ∧ right_type ≠ .Float) then
              .err ("Invalid types \"" ++ tyStr left_type ++ "\" and \"" ++
                tyStr right_type ++ "\" for binary operation!")
            else
              .ok (.mk (.BinaryOperationNode l op r)
                (some (if right_type = .Float ∨ left_type = .Float then
                  .Float else .Int)))
  | .mk (.FunctionCallNode function _args) _ =>
    .err ("Function calls in expressions aren't supported yet! (Tried to call \"" ++
      String.mk function ++ "()\" in expression)")
  | .mk (.IntLiteralNode v) _ => .ok (.mk (.IntLiteralNode v) (some .Int))
  | .mk (.FloatLiteralNode t) _ => .ok (.mk (.FloatLiteralNode t) (some .Float))
  | .mk (.BoolLiteralNode b) _ => .ok (.mk (.BoolLiteralNode b) (some .Bool))
  | .mk (.CharLiteralNode c) _ => .ok (.mk (.CharLiteralNode c) (some .Char))
  | .mk (.StringLiteralNode s) _ => .ok (.mk (.StringLiteralNode s) (some .Str))

/-- One iteration of the command loop in `VariableTraverser::traverse`
(`variable_traverser.rs`), returning the updated symbol table and the
command with its expression slots filled. -/
def traverseCmd (tbl : Table) : CommandNode → Res (Table × CommandNode)
  -- explicit type given (`Type::from` panics on a name outside the
  -- closed set) and an initializer present: exact equality required
  | .VariableDefinitionNode ⟨some vtype_str, name, some right_expr⟩ =>
    match typeFrom vtype_str with
    | none => .panicRes
    | some vtype =>
      rbind (assignExpressionType tbl right_expr) fun right =>
        rbind (getSlot right) fun right_type =>
          if vtype ≠ right_type then
            .err ("Mismatching variable types in variable definition: " ++
              quoted vtype_str ++ " (left) and \"" ++ tyStr right_type ++
              "\" (right)")
          else
            .ok (insertTable tbl name vtype,
              .VariableDefinitionNode ⟨some vtype_str, name, some right⟩)
  -- explicit type given, no initializer
  | .VariableDefinitionNode ⟨some vtype_str, name, none⟩ =>
    match typeFrom vtype_str with
    | none => .panicRes
    | some vtype =>
      .ok (insertTable tbl name vtype,
        .VariableDefinitionNode ⟨some vtype_str, name, none⟩)
  -- no explicit type: the initializer must be there and fixes the type
  | .VariableDefinitionNode ⟨none, name, some right_expr⟩ =>
    rbind (assignExpressionType tbl right_expr) fun right =>
      rbind (getSlot right) fun vtype =>
        .ok (insertTable tbl name vtype,
          .VariableDefinitionNode ⟨none, name, some right⟩)
  | .VariableDefinitionNode ⟨none, _, none⟩ =>
    .err "Undefined type for variable definition!"
  | .VariableAssignmentNode ⟨name, expression⟩ =>
    match lookupTable tbl name with
    | none => .err ("Assigning to undefined variable " ++ quoted name)
    | some vtype =>
      rbind (assignExpressionType tbl expression) fun right =>
        rbind (getSlot right) fun right_type =>
          if vtype ≠ right_type then
            .err ("Cannot assign expression of type \"" ++ tyStr right_type ++
              "\" to variable of type \"" ++ tyStr vtype ++ "\"")
          else
            .ok (tbl, .VariableAssignmentNode ⟨name, right⟩)
  | .FunctionCallNode ⟨function, args⟩ =>
    if function ≠ "print".data then
      .err ("Undefined function " ++ quoted function ++
        " (only the print function is implemented yet)")
    else
      -- `args.len() != 1` is the refutation of the one-element pattern
      match args with
      | [arg_expr] =>
        rbind (assignExpressionType tbl arg_expr) fun arg =>
          .ok (tbl, .FunctionCallNode ⟨function, [arg]⟩)
      | _ =>
        .err "Invalid number of elements for print function! (You have to supply exactly one element)"

/-- `VariableTraverser::traverse` over the command list of a scope,
threading the symbol table left to right (the table starts empty in
`VariableTraverser::new`). -/
def traverseList (tbl : Table) : List CommandNode → Res (Table × List CommandNode)
  | [] => .ok (tbl, [])
  | command :: rest =>
    rbind (traverseCmd tbl command) fun (tbl, cmd) =>
      rbind (traverseList tbl rest) fun (tblF, cmds) =>
        .ok (tblF, cmd :: cmds)

/-- `VariableTraverser::traverse` on a whole `ScopeNode`, starting from
the empty table of `VariableTraverser::new`. -/
def traverse (scope : ScopeNode) : Res (Table × ScopeNode) :=
  rbind (traverseList [] scope.commands) fun (tbl, commands) =>
    .ok (tbl, ⟨commands⟩)

/-- Modelled from the spec: the three-stage pipeline of §2 (`run` in
`lib.rs` wires lexer → parser and stops there because no backend exists;
the spec's pipeline hands the parsed scope to the semantic analyzer, the
missing glue being the sole addition here).  Returns the analyzer's final
symbol table and the fully annotated scope. -/
def compile (f : Nat) (source : String) : Res (Table × ScopeNode) :=
  rbind (createTokens source.data) fun tokens =>
    rbind (parse f tokens) fun scope =>
      traverse scope

/-- The type the pipeline infers for a variable: the symbol-table entry
left for it by a successful compilation. -/
def inferredType (f : Nat) (source : String) (name : String) : Option Ty :=
  match compile f source with
  | .ok (tbl, _) => lookupTable tbl name.data
  | _ => none

/-- The error message of a failed compilation, if any. -/
def compileError (f : Nat) (source : String) : Option String :=
  match compile f source with
  | .err m => some m
  | _ => none

/-- Lex a source string and parse it as a single expression
(`parse_expression` from cursor 0), for stating expression-level parsing
facts. -/
def lexExpr (f : Nat) (s : String) : Res (TExpressionNode × Nat) :=
  rbind (createTokens s.data) fun ts => parseExpression f ts 0

/-- Every expression node reachable in the tree carries a present
(non-`none`) type slot. -/
def texprTyped : TExpressionNode → Bool
  | .mk (.BinaryOperationNode l _ r) t => t.isSome && texprTyped l && texprTyped r
  | .mk (.UnaryOperationNode _ e) t => t.isSome && texprTyped e
  | .mk (.FunctionCallNode _ args) t =>
    t.isSome && args.attach.all (fun a => texprTyped a.1)
  | .mk _ t => t.isSome
termination_by e => sizeOf e
decreasing_by
all_goals simp_wf
all_goals first
  | omega
  | (have hlt := List.sizeOf_lt_of_mem a.2; omega)

/-- Every expression node reachable from a command has a present type
slot. -/
def cmdTyped : CommandNode → Bool
  | .VariableDefinitionNode vd =>
    match vd.expression with
    | some e => texprTyped e
    | none => true
  | .VariableAssignmentNode va => texprTyped va.expression
  | .FunctionCallNode fc => fc.args.all texprTyped

/-- Every expression node reachable in a scope has a present type slot. -/
def scopeTyped (s : ScopeNode) : Bool :=
  s.commands.all cmdTyped

/-! ## Theorems -/

@[simp] theorem rbind_ok {α β : Type} (a : α) (k : α → Res β) :
    rbind (.ok a) k = k a := rfl

@[simp] theorem rbind_err {α β : Type} (m : String) (k : α → Res β) :
    rbind (.err m) k = .err m := rfl

@[simp] theorem rbind_panic {α β : Type} (k : α → Res β) :
    rbind (.panicRes : Res α) k = .panicRes := rfl

@[simp] theorem rbind_nofuel {α β : Type} (k : α → Res β) :
    rbind (.nofuel : Res α) k = .nofuel := rfl

/-- C2: binary operators of strictly higher priority bind tighter and
equal-priority operators associate to the left: lexing and parsing the
expression of `"1 + 2 * 3;"` yields a top-level `+` whose right child is
the `2 * 3` binary node, and `"10 - 2 - 3;"` yields `(10 - 2) - 3`, a
top-level `-` whose left child is the `10 - 2` binary node (the cursor
stops on the semicolon, index 5, in both cases). -/
theorem C2_precedence_associativity :
    lexExpr 20 "1 + 2 * 3;" =
      .ok (.mk (.BinaryOperationNode
        (.mk (.IntLiteralNode 1) none)
        .Plus
        (.mk (.BinaryOperationNode
          (.mk (.IntLiteralNode 2) none)
          .Multiply
          (.mk (.IntLiteralNode 3) none)) none)) none, 5) ∧
    lexExpr 20 "10 - 2 - 3;" =
      .ok (.mk (.BinaryOperationNode
        (.mk (.BinaryOperationNode
          (.mk (.IntLiteralNode 10) none)
          .Minus
          (.mk (.IntLiteralNode 2) none)) none)
        .Minus
        (.mk (.IntLiteralNode 3) none)) none, 5) :=
  ⟨rfl, rfl⟩

/-- C1, counterexample: on the claim's own example
`let x = print(1) + 1;` the pipeline fails in the *parser* — which
requires a semicolon after every function call, also in operand
position — and not with the semantic analyzer's
function-call-in-expression error, contradicting the claim that every
nested call is accepted by the parser and rejected semantically. -/
theorem C1_counterexample :
    compile 20 "let x = print(1) + 1;" =
      .err "Unexpected token \"+\" while parsing function call (expected semicolon)" ∧
    "Unexpected token \"+\" while parsing function call (expected semicolon)" ≠
      "Function calls in expressions aren't supported yet! (Tried to call \"print()\" in expression)" :=
  ⟨rfl, by decide⟩

/-- C1, amended: the semantic analyzer rejects every function-call node
that reaches expression-operand position with the
"function calls in expressions aren't supported yet" error, but the
parser only lets a call into operand position when a semicolon follows
its closing parenthesis; for example `let x = print(1);+1;` parses (the
call, its semicolon, and `+1` form the initializer expression) and then
fails with exactly that semantic error, while the claim's
`let x = print(1) + 1;` is already a parse-time syntax error. -/
theorem C1_amended_semantic_rejection :
    (∀ (tbl : Table) (fname : List Char) (args : List TExpressionNode)
      (t0 : Option Ty),
      assignExpressionType tbl (.mk (.FunctionCallNode fname args) t0) =
        .err ("Function calls in expressions aren't supported yet! (Tried to call \"" ++
          String.mk fname ++ "()\" in expression)")) ∧
    compile 20 "let x = print(1);+1;" =
      .err "Function calls in expressions aren't supported yet! (Tried to call \"print()\" in expression)" :=
  ⟨fun _ _ _ _ => rfl, rfl⟩

/-- C3: the claim says `create_tokens` never panics, also on non-ASCII
literal content; in fact on the three-character source `"é"` (a string
literal holding one two-byte character) the loop advances by the token's
*byte* length 4 over a 3-character stream and the `unwrap` of `advance`
panics. -/
theorem C3_lexer_panics_on_non_ascii :
    createTokens ("\"é\"".data) = .panicRes :=
  rfl

/-- C4: parsing the compound assignment `x op= e;` (a `Name` token, the
compound token `op=`, the tokens of `e`, a semicolon) produces an
assignment node whose expression is the binary operation
`op (Variable x) (parse of e)`; and, concretely, `x += 5;` after
`let int x = 1;` parses and type-checks to exactly the same annotated
program as `x = x + 5;` (both compile to the same table `x ↦ Int` and
the same annotated assignment of `x + 5`). -/
theorem C4_compound_assignment_desugars :
    (∀ (f : Nat) (ts : List Token) (idx : Nat) (x : List Char)
      (op : Operator) (e : TExpressionNode) (j : Nat) (semi : List Char),
      ts[idx]? = some ⟨.Name, x⟩ →
      ts[idx + 1]? = some ⟨.AssignmentOperator, [opChar op, '=']⟩ →
      parseExpression f ts (idx + 2) = .ok (e, j) →
      ts[j]? = some ⟨.Semicolon, semi⟩ →
      parseVariableAssignment f ts idx =
        .ok (⟨x, .mk (.BinaryOperationNode
          (.mk (.VariableNode x) none) op e) none⟩, j + 1)) ∧
    compile 12 "let int x = 1;x += 5;" =
      .ok ([("x".data, .Int)],
        ⟨[.VariableDefinitionNode ⟨some "int".data, "x".data,
            some (.mk (.IntLiteralNode 1) (some .Int))⟩,
          .VariableAssignmentNode ⟨"x".data, .mk (.BinaryOperationNode
            (.mk (.VariableNode "x".data) (some .Int)) .Plus
            (.mk (.IntLiteralNode 5) (some .Int))) (some .Int)⟩]⟩) ∧
    compile 12 "let int x = 1;x = x + 5;" =
      .ok ([("x".data, .Int)],
        ⟨[.VariableDefinitionNode ⟨some "int".data, "x".data,
            some (.mk (.IntLiteralNode 1) (some .Int))⟩,
          .VariableAssignmentNode ⟨"x".data, .mk (.BinaryOperationNode
            (.mk (.VariableNode "x".data) (some .Int)) .Plus
            (.mk (.IntLiteralNode 5) (some .Int))) (some .Int)⟩]⟩) := by
  refine ⟨?_, rfl, rfl⟩
  intro f ts idx x op e j semi hname haop he hsemi
  cases op <;>
    simp [parseVariableAssignment, opChar, operatorFrom, hname, haop, he, hsemi,
      show '+'.utf8Size = 1 from rfl, show '-'.utf8Size = 1 from rfl,
      show '*'.utf8Size = 1 from rfl, show '/'.utf8Size = 1 from rfl,
      show '%'.utf8Size = 1 from rfl]

/-- C4, witness: the universal part applied to the token sequence of
`x += 5;` with every hypothesis discharged on the concrete tokens. -/
theorem C4_compound_assignment_witness :
    parseVariableAssignment 5
      [⟨.Name, ['x']⟩, ⟨.AssignmentOperator, ['+', '=']⟩,
       ⟨.NumberLiteral, ['5']⟩, ⟨.Semicolon, [';']⟩] 0 =
      .ok (⟨['x'], .mk (.BinaryOperationNode
        (.mk (.VariableNode ['x']) none) .Plus
        (.mk (.IntLiteralNode 5) none)) none⟩, 4) :=
  C4_compound_assignment_desugars.1 5
    [⟨.Name, ['x']⟩, ⟨.AssignmentOperator, ['+', '=']⟩,
     ⟨.NumberLiteral, ['5']⟩, ⟨.Semicolon, [';']⟩] 0
    ['x'] .Plus (.mk (.IntLiteralNode 5) none) 3 [';'] rfl rfl rfl rfl

/-- C5: typing a binary operation types both operands, fails with an
error naming both found types unless each is `Int` or `Float`, and
otherwise yields `Float` exactly when at least one operand is `Float`;
concretely `let x = 1 + 2.0;` infers `x : Float` and `let x = 1 + 2;`
infers `x : Int` through the whole pipeline. -/
theorem C5_binary_operation_typing :
    (∀ (tbl : Table) (l r l' r' : TExpressionNode) (op : Operator)
      (t0 : Option Ty) (tl tr : Ty),
      assignExpressionType tbl l = .ok l' →
      assignExpressionType tbl r = .ok r' →
      l'.slot = some tl → r'.slot = some tr →
      assignExpressionType tbl (.mk (.BinaryOperationNode l op r) t0) =
        if (tl ≠ .Int ∧ tl ≠ .Float) ∨ (tr ≠ .Int ∧ tr ≠ .Float) then
          .err ("Invalid types \"" ++ tyStr tl ++ "\" and \"" ++ tyStr tr ++
            "\" for binary operation!")
        else
          .ok (.mk (.BinaryOperationNode l' op r')
            (some (if tr = .Float ∨ tl = .Float then .Float else .Int)))) ∧
    inferredType 12 "let x = 1 + 2.0;" "x" = some .Float ∧
    inferredType 12 "let x = 1 + 2;" "x" = some .Int := by
  refine ⟨?_, rfl, rfl⟩
  intro tbl l r l' r' op t0 tl tr hl hr htl htr
  obtain ⟨nl, sl⟩ := l'
  obtain ⟨nr, sr⟩ := r'
  simp [TExpressionNode.slot] at htl htr
  subst htl htr
  simp [assignExpressionType, hl, hr, getSlot]

/-- C5, witness: the binary-typing rule applied to `1 + 2.0`, whose
operands type to `Int` and `Float`, yielding the promoted type
`Float`. -/
theorem C5_binary_operation_typing_witness :
    assignExpressionType [] (.mk (.IntLiteralNode 1) none) =
      .ok (.mk (.IntLiteralNode 1) (some .Int)) ∧
    assignExpressionType []
      (.mk (.BinaryOperationNode (.mk (.IntLiteralNode 1) none) .Plus
        (.mk (.FloatLiteralNode ['2', '.', '0']) none)) none) =
      .ok (.mk (.BinaryOperationNode (.mk (.IntLiteralNode 1) (some .Int))
        .Plus (.mk (.FloatLiteralNode ['2', '.', '0']) (some .Float)))
        (some .Float)) :=
  ⟨rfl, C5_binary_operation_typing.1 [] (.mk (.IntLiteralNode 1) none)
    (.mk (.FloatLiteralNode ['2', '.', '0']) none)
    (.mk (.IntLiteralNode 1) (some .Int))
    (.mk (.FloatLiteralNode ['2', '.', '0']) (some .Float))
    .Plus none .Int .Float rfl rfl rfl rfl⟩

/-- C7: a variable definition with an explicit type annotation (from the
analyzer's closed type set) and an initializer types the initializer and
fails with the mismatch error unless the initializer's type equals the
annotated type exactly — no numeric coercion, so `let int x = 'a';` and
even `let int x = 1.0;` fail through the whole pipeline. -/
theorem C7_explicit_type_exact_match :
    (∀ (tbl : Table) (vtype_str : List Char) (T : Ty) (name : List Char)
      (e e' : TExpressionNode) (ty : Ty),
      typeFrom vtype_str = some T →
      assignExpressionType tbl e = .ok e' →
      e'.slot = some ty →
      traverseCmd tbl (.VariableDefinitionNode ⟨some vtype_str, name, some e⟩) =
        if T ≠ ty then
          .err ("Mismatching variable types in variable definition: " ++
            quoted vtype_str ++ " (left) and \"" ++ tyStr ty ++ "\" (right)")
        else
          .ok (insertTable tbl name T,
            .VariableDefinitionNode ⟨some vtype_str, name, some e'⟩)) ∧
    compileError 12 "let int x = 'a';" =
      some "Mismatching variable types in variable definition: \"int\" (left) and \"char\" (right)" ∧
    compileError 12 "let int x = 1.0;" =
      some "Mismatching variable types in variable definition: \"int\" (left) and \"float\" (right)" := by
  refine ⟨?_, rfl, rfl⟩
  intro tbl vtype_str T name e e' ty hT he hslot
  obtain ⟨ne, se⟩ := e'
  simp [TExpressionNode.slot] at hslot
  subst hslot
  simp [traverseCmd, hT, he, getSlot]

/-- C7, witness: the definition rule applied to `let int x = 'a';`
(annotation `int`, initializer of type `Char`), producing the mismatch
error. -/
theorem C7_explicit_type_exact_match_witness :
    typeFrom "int".data = some .Int ∧
    traverseCmd [] (.VariableDefinitionNode
      ⟨some "int".data, "x".data, some (.mk (.CharLiteralNode 'a') none)⟩) =
      .err "Mismatching variable types in variable definition: \"int\" (left) and \"char\" (right)" :=
  ⟨rfl, C7_explicit_type_exact_match.1 [] "int".data .Int "x".data
    (.mk (.CharLiteralNode 'a') none) (.mk (.CharLiteralNode 'a') (some .Char))
    .Char rfl rfl rfl⟩

/-- C8: a variable name never inserted by a definition is a semantic
error, not a crash, both as an assignment target and as a variable
reference in an expression; concretely `y = 1;` with no prior `let y`
fails through the whole pipeline with the undefined-variable error. -/
theorem C8_undefined_variable_is_error :
    (∀ (tbl : Table) (name : List Char) (e : TExpressionNode),
      lookupTable tbl name = none →
      traverseCmd tbl (.VariableAssignmentNode ⟨name, e⟩) =
        .err ("Assigning to undefined variable " ++ quoted name)) ∧
    (∀ (tbl : Table) (name : List Char) (t0 : Option Ty),
      lookupTable tbl name = none →
      assignExpressionType tbl (.mk (.VariableNode name) t0) =
        .err ("Usage of undefined variable " ++ quoted name ++ " in expression!")) ∧
    compileError 12 "y = 1;" = some "Assigning to undefined variable \"y\"" := by
  refine ⟨?_, ?_, rfl⟩
  · intro tbl name e h
    simp [traverseCmd, h]
  · intro tbl name t0 h
    simp [assignExpressionType, h]

/-- C8, witness: both undefined-variable rules applied to the name `y`
in the empty symbol table. -/
theorem C8_undefined_variable_is_error_witness :
    lookupTable [] "y".data = none ∧
    traverseCmd [] (.VariableAssignmentNode
      ⟨"y".data, .mk (.IntLiteralNode 1) none⟩) =
      .err "Assigning to undefined variable \"y\"" ∧
    assignExpressionType [] (.mk (.VariableNode "y".data) none) =
      .err "Usage of undefined variable \"y\" in expression!" :=
  ⟨rfl,
   C8_undefined_variable_is_error.1 [] "y".data (.mk (.IntLiteralNode 1) none) rfl,
   C8_undefined_variable_is_error.2.1 [] "y".data none rfl⟩

/-- Scanning up to a terminator collects exactly the characters before
its first occurrence. -/
theorem takeWhile_until (c : Char) (ys : List Char) : ∀ (xs : List Char),
    c ∉ xs → (xs ++ c :: ys).takeWhile (fun x => !decide (x = c)) = xs := by
  intro xs h
  induction xs with
  | nil => simp
  | cons x xs ih =>
    simp only [List.mem_cons, not_or] at h
    simp [List.takeWhile_cons, Ne.symm h.1, ih h.2]

/-- A terminator-free scan collects everything. -/
theorem takeWhile_all (c : Char) : ∀ (xs : List Char),
    c ∉ xs → xs.takeWhile (fun x => !decide (x = c)) = xs := by
  intro xs h
  induction xs with
  | nil => simp
  | cons x xs ih =>
    simp only [List.mem_cons, not_or] at h
    simp [List.takeWhile_cons, Ne.symm h.1, ih h.2]

/-- C10: a char literal whose quotes enclose zero or more than one
character is not an error anywhere in the pipeline: the lexer emits a
`CharLiteral` token holding all scanned characters between the quotes,
the parser builds the char node from index 1 of the token text, and the
whole pipeline accepts `let x = 'ab';` as the char `a` and
`let x = '';` as the quote character itself, typed `Char`. -/
theorem C10_malformed_char_literals_accepted :
    (∀ (contents rest : List Char), '\'' ∉ contents →
      nextToken '\'' (contents ++ '\'' :: rest) =
        .tokStep ⟨.CharLiteral, '\'' :: contents ++ ['\'']⟩) ∧
    (∀ (f : Nat) (ts : List Token) (idx : Nat) (v : List Char) (c : Char),
      ts[idx]? = some ⟨.CharLiteral, v⟩ →
      v[1]? = some c →
      parseSingleValue (f + 1) ts idx =
        .ok (.mk (.CharLiteralNode c) none, idx + 1)) ∧
    compile 12 "let x = 'ab';" =
      .ok ([("x".data, .Char)],
        ⟨[.VariableDefinitionNode ⟨none, "x".data,
          some (.mk (.CharLiteralNode 'a') (some .Char))⟩]⟩) ∧
    compile 12 "let x = '';" =
      .ok ([("x".data, .Char)],
        ⟨[.VariableDefinitionNode ⟨none, "x".data,
          some (.mk (.CharLiteralNode '\'') (some .Char))⟩]⟩) := by
  refine ⟨?_, ?_, rfl, rfl⟩
  · intro contents rest h
    simp [nextToken, peekUntil, takeWhile_until '\'' rest contents h]
  · intro f ts idx v c hv hc
    simp only [parseSingleValue, parserF, parserStep, hv, hc]

/-- C10, witness: the lexer rule on the two-character literal `'ab'` and
the parser rule on the resulting token, which yields the char `a`. -/
theorem C10_malformed_char_literals_witness :
    '\'' ∉ ['a', 'b'] ∧
    nextToken '\'' (['a', 'b'] ++ '\'' :: []) =
      .tokStep ⟨.CharLiteral, '\'' :: ['a', 'b'] ++ ['\'']⟩ ∧
    parseSingleValue 2 [⟨.CharLiteral, ['\'', 'a', 'b', '\'']⟩] 0 =
      .ok (.mk (.CharLiteralNode 'a') none, 1) :=
  ⟨by decide,
   C10_malformed_char_literals_accepted.1 ['a', 'b'] [] (by decide),
   C10_malformed_char_literals_accepted.2.1 1 [⟨.CharLiteral, ['\'', 'a', 'b', '\'']⟩]
     0 ['\'', 'a', 'b', '\''] 'a' rfl rfl⟩

/-- For single-byte (ASCII) characters the UTF-8 byte count equals the
character count, so `advance(token.value.len())` is exact. -/
theorem utf8Len_ascii : ∀ (cs : List Char), (∀ c ∈ cs, c.utf8Size = 1) →
    utf8Len cs = cs.length := by
  intro cs
  induction cs with
  | nil => intro _; rfl
  | cons c cs ih =>
    intro h
    have hc : c.utf8Size = 1 := h c (by simp)
    have hr := ih (fun x hx => h x (by simp [hx]))
    simp only [utf8Len, List.map_cons, List.sum_cons, List.length_cons] at *
    omega

/-- The fuel of the lexer loop is an artifact of the embedding: any two
fuels exceeding the number of remaining characters give the same
result. -/
theorem tokensLoopF_fuel_irrel : ∀ (n : Nat) (cs : List Char) (acc : List Token)
    (f g : Nat), cs.length ≤ n → cs.length < f → cs.length < g →
    tokensLoopF f cs acc = tokensLoopF g cs acc := by
  intro n
  induction n with
  | zero =>
    intro cs acc f g hn hf hg
    match cs, f, g with
    | [], f' + 1, g' + 1 => rfl
    | [], 0, _ => omega
    | [], _ + 1, 0 => omega
    | c :: rest, _, _ => simp at hn
  | succ m ih =>
    intro cs acc f g hn hf hg
    match cs, f, g with
    | [], f' + 1, g' + 1 => rfl
    | [], 0, _ => omega
    | [], _ + 1, 0 => omega
    | c :: rest, 0, _ => omega
    | c :: rest, _ + 1, 0 => omega
    | c :: rest, f' + 1, g' + 1 =>
      simp only [List.length_cons] at hn hf hg
      simp only [tokensLoopF]
      cases hstep : nextToken c rest with
      | panicStep => rfl
      | errStep msg => rfl
      | wsStep =>
        exact ih rest acc f' g' (by omega) (by omega) (by omega)
      | commentStep adv =>
        by_cases hadv : adv - 1 ≤ rest.length
        · simp only [hadv, if_true]
          exact ih (rest.drop (adv - 1)) acc f' g'
            (by simp [List.length_drop]; omega)
            (by simp [List.length_drop]; omega)
            (by simp [List.length_drop]; omega)
        · simp only [hadv, if_false]
      | tokStep t =>
        by_cases hadv : utf8Len t.value - 1 ≤ rest.length
        · simp only [hadv, if_true]
          exact ih (rest.drop (utf8Len t.value - 1)) (acc ++ [t]) f' g'
            (by simp [List.length_drop]; omega)
            (by simp [List.length_drop]; omega)
            (by simp [List.length_drop]; omega)
        · simp only [hadv, if_false]

/-- C9, counterexample: the claim holds for no restriction on the
comment's characters, but the advance after a comment counts *bytes*:
with the two-byte characters `éé` in the comment the lexer over-advances
past the newline and swallows the `x`, so tokenizing `"//éé\nx;"` is not
tokenizing `"x;"` (the former loses the `x` token). -/
theorem C9_counterexample_non_ascii_comment :
    createTokens ('/' :: '/' :: "éé".data ++ '\n' :: "x;".data) ≠
      createTokens "x;".data := by
  decide

/-- C9, amended: tokenizing a source that begins with a line comment of
*single-byte* characters followed by a newline yields exactly the token
sequence of the remainder alone, and such a comment running to
end-of-input is not an error either (the comment never produces a
token).  With multi-byte comment characters the byte-counted advance
overshoots (see the counterexample). -/
theorem C9_comment_skipped_ascii (comment rest : List Char)
    (hascii : ∀ c ∈ comment, c.utf8Size = 1) (hnl : '\n' ∉ comment) :
    createTokens ('/' :: '/' :: comment ++ '\n' :: rest) = createTokens rest ∧
    createTokens ('/' :: '/' :: comment) = .ok [] := by
  have hlen := utf8Len_ascii comment hascii
  constructor
  · have hpu : peekUntil '\n' 2 true ('/' :: '/' :: (comment ++ '\n' :: rest)) =
        some comment := by
      simp [peekUntil, takeWhile_until '\n' rest comment hnl]
    have hstep : nextToken '/' ('/' :: (comment ++ '\n' :: rest)) =
        .commentStep (utf8Len comment + 2) := by
      simp [nextToken, hpu]
    have hws : nextToken '\n' rest = .wsStep := rfl
    unfold createTokens
    simp only [List.cons_append, List.length_cons, List.length_append]
    rw [tokensLoopF]
    simp only [hstep, hlen]
    rw [if_pos (by simp only [List.length_append, List.length_cons]; omega)]
    rw [show comment.length + 2 - 1 = comment.length + 1 from by omega]
    simp only [List.drop_succ_cons, List.drop_left]
    conv_lhs => rw [tokensLoopF]
    rw [hws]
    exact tokensLoopF_fuel_irrel rest.length rest [] _ _ (Nat.le_refl _)
      (by omega) (by omega)
  · have hpu : peekUntil '\n' 2 true ('/' :: '/' :: comment) = some comment := by
      simp [peekUntil, takeWhile_all '\n' comment hnl]
    have hstep : nextToken '/' ('/' :: comment) =
        .commentStep (utf8Len comment + 2) := by
      simp [nextToken, hpu]
    unfold createTokens
    simp only [List.length_cons]
    rw [tokensLoopF]
    simp only [hstep, hlen]
    rw [if_pos (by simp only [List.length_cons]; omega)]
    rw [show comment.length + 2 - 1 = comment.length + 1 from by omega]
    simp only [List.drop_succ_cons, List.drop_length]
    rw [tokensLoopF]

/-- C9, witness: the amended statement on the spec's own example
`"// comment\nlet x = 1;"`, whose comment text is all ASCII. -/
theorem C9_comment_skipped_ascii_witness :
    (∀ c ∈ " comment".data, c.utf8Size = 1) ∧ '\n' ∉ " comment".data ∧
    createTokens ('/' :: '/' :: " comment".data ++ '\n' :: "let x = 1;".data) =
      createTokens "let x = 1;".data ∧
    createTokens ('/' :: '/' :: " comment".data) = .ok [] :=
  ⟨by decide, by decide,
   (C9_comment_skipped_ascii " comment".data "let x = 1;".data
     (by decide) (by decide)).1,
   (C9_comment_skipped_ascii " comment".data "let x = 1;".data
     (by decide) (by decide)).2⟩

/-- Typing an expression successfully fills the type slot of the
returned node and of every node reachable inside it. -/
theorem assignTyped : ∀ (tbl : Table) (e e2 : TExpressionNode),
    assignExpressionType tbl e = .ok e2 → texprTyped e2 = true
  | tbl, .mk (.VariableNode n) t0, e2, h => by
    simp only [assignExpressionType] at h
    cases hl : lookupTable tbl n with
    | some ty =>
      rw [hl] at h
      simp at h
      subst h
      simp [texprTyped]
    | none =>
      rw [hl] at h
      simp at h
  | tbl, .mk (.IntLiteralNode v) t0, e2, h => by
    simp only [assignExpressionType] at h
    simp at h
    subst h
    simp [texprTyped]
  | tbl, .mk (.FloatLiteralNode v) t0, e2, h => by
    simp only [assignExpressionType] at h
    simp at h
    subst h
    simp [texprTyped]
  | tbl, .mk (.BoolLiteralNode v) t0, e2, h => by
    simp only [assignExpressionType] at h
    simp at h
    subst h
    simp [texprTyped]
  | tbl, .mk (.CharLiteralNode v) t0, e2, h => by
    simp only [assignExpressionType] at h
    simp at h
    subst h
    simp [texprTyped]
  | tbl, .mk (.StringLiteralNode v) t0, e2, h => by
    simp only [assignExpressionType] at h
    simp at h
    subst h
    simp [texprTyped]
  | tbl, .mk (.FunctionCallNode fn args) t0, e2, h => by
    simp only [assignExpressionType] at h
    simp at h
  | tbl, .mk (.UnaryOperationNode op sub) t0, e2, h => by
    simp only [assignExpressionType] at h
    cases hs : assignExpressionType tbl sub with
    | ok sub2 =>
      have ihs := assignTyped tbl sub sub2 hs
      rw [hs] at h
      simp only [rbind_ok] at h
      obtain ⟨ns, ss⟩ := sub2
      cases ss with
      | none => simp [getSlot] at h
      | some st =>
        simp only [getSlot, rbind_ok] at h
        cases st <;> simp at h <;> subst h <;>
          simp_all [texprTyped]
    | err m => rw [hs] at h; simp at h
    | panicRes => rw [hs] at h; simp at h
    | nofuel => rw [hs] at h; simp at h
  | tbl, .mk (.BinaryOperationNode l op r) t0, e2, h => by
    simp only [assignExpressionType] at h
    cases hl : assignExpressionType tbl l with
    | ok l2 =>
      have ihl := assignTyped tbl l l2 hl
      rw [hl] at h
      simp only [rbind_ok] at h
      cases hr : assignExpressionType tbl r with
      | ok r2 =>
        have ihr := assignTyped tbl r r2 hr
        rw [hr] at h
        simp only [rbind_ok] at h
        obtain ⟨nl, sl⟩ := l2
        obtain ⟨nr, sr⟩ := r2
        cases sl with
        | none => simp [getSlot] at h
        | some tl =>
          cases sr with
          | none => simp [getSlot] at h
          | some tr =>
            simp only [getSlot, rbind_ok] at h
            by_cases hcond : (tl ≠ Ty.Int ∧ tl ≠ Ty.Float) ∨ (tr ≠ Ty.Int ∧ tr ≠ Ty.Float)
            · rw [if_pos hcond] at h; simp at h
            · rw [if_neg hcond] at h
              simp at h
              subst h
              simp_all [texprTyped]
      | err m => rw [hr] at h; simp at h
      | panicRes => rw [hr] at h; simp at h
      | nofuel => rw [hr] at h; simp at h
    | err m => rw [hl] at h; simp at h
    | panicRes => rw [hl] at h; simp at h
    | nofuel => rw [hl] at h; simp at h

theorem traverseCmdTyped : ∀ (tbl : Table) (c : CommandNode) (tbl2 : Table)
    (c2 : CommandNode), traverseCmd tbl c = .ok (tbl2, c2) → cmdTyped c2 = true := by
  intro tbl c tbl2 c2 h
  match c with
  | .VariableDefinitionNode ⟨some vtype_str, nm, some right_expr⟩ =>
    simp only [traverseCmd] at h
    cases hT : typeFrom vtype_str with
    | none => rw [hT] at h; simp at h
    | some vtype =>
      rw [hT] at h
      cases ha : assignExpressionType tbl right_expr with
      | ok right =>
        have iha := assignTyped tbl right_expr right ha
        rw [ha] at h
        simp only [rbind_ok] at h
        obtain ⟨nr, sr⟩ := right
        cases sr with
        | none => simp [getSlot] at h
        | some rt =>
          simp only [getSlot, rbind_ok] at h
          by_cases hc : vtype ≠ rt
          · rw [if_pos hc] at h; simp at h
          · rw [if_neg hc] at h
            simp at h
            obtain ⟨h1, h2⟩ := h
            subst h2
            simp_all [cmdTyped]
      | err m => rw [ha] at h; simp at h
      | panicRes => rw [ha] at h; simp at h
      | nofuel => rw [ha] at h; simp at h
  | .VariableDefinitionNode ⟨some vtype_str, nm, none⟩ =>
    simp only [traverseCmd] at h
    cases hT : typeFrom vtype_str with
    | none => rw [hT] at h; simp at h
    | some vtype =>
      rw [hT] at h
      simp at h
      obtain ⟨h1, h2⟩ := h
      subst h2
      simp [cmdTyped]
  | .VariableDefinitionNode ⟨none, nm, some right_expr⟩ =>
    simp only [traverseCmd] at h
    cases ha : assignExpressionType tbl right_expr with
    | ok right =>
      have iha := assignTyped tbl right_expr right ha
      rw [ha] at h
      simp only [rbind_ok] at h
      obtain ⟨nr, sr⟩ := right
      cases sr with
      | none => simp [getSlot] at h
      | some rt =>
        simp only [getSlot, rbind_ok] at h
        simp at h
        obtain ⟨h1, h2⟩ := h
        subst h2
        simp_all [cmdTyped]
    | err m => rw [ha] at h; simp at h
    | panicRes => rw [ha] at h; simp at h
    | nofuel => rw [ha] at h; simp at h
  | .VariableDefinitionNode ⟨none, nm, none⟩ =>
    simp [traverseCmd] at h
  | .VariableAssignmentNode ⟨nm, ex⟩ =>
    simp only [traverseCmd] at h
    cases hl : lookupTable tbl nm with
    | none => rw [hl] at h; simp at h
    | some vtype =>
      rw [hl] at h
      cases ha : assignExpressionType tbl ex with
      | ok right =>
        have iha := assignTyped tbl ex right ha
        rw [ha] at h
        simp only [rbind_ok] at h
        obtain ⟨nr, sr⟩ := right
        cases sr with
        | none => simp [getSlot] at h
        | some rt =>
          simp only [getSlot, rbind_ok] at h
          by_cases hc : vtype ≠ rt
          · rw [if_pos hc] at h; simp at h
          · rw [if_neg hc] at h
            simp at h
            obtain ⟨h1, h2⟩ := h
            subst h2
            simp_all [cmdTyped]
      | err m => rw [ha] at h; simp at h
      | panicRes => rw [ha] at h; simp at h
      | nofuel => rw [ha] at h; simp at h
  | .FunctionCallNode ⟨fn, args⟩ =>
    simp only [traverseCmd] at h
    by_cases hf : fn ≠ "print".data
    · rw [if_pos hf] at h; simp at h
    · rw [if_neg hf] at h
      match args with
      | [arg_expr] =>
        have h : rbind (assignExpressionType tbl arg_expr)
            (fun arg => .ok (tbl, .FunctionCallNode ⟨fn, [arg]⟩)) = .ok (tbl2, c2) := h
        cases ha : assignExpressionType tbl arg_expr with
        | ok arg =>
          have iha := assignTyped tbl arg_expr arg ha
          rw [ha] at h
          simp only [rbind_ok] at h
          simp at h
          obtain ⟨h1, h2⟩ := h
          subst h2
          simp_all [cmdTyped]
        | err m => rw [ha] at h; simp at h
        | panicRes => rw [ha] at h; simp at h
        | nofuel => rw [ha] at h; simp at h
      | [] => simp at h
      | a :: b :: restArgs => simp at h

theorem traverseListTyped : ∀ (cmds : List CommandNode) (tbl tbl2 : Table)
    (cmds2 : List CommandNode),
    traverseList tbl cmds = .ok (tbl2, cmds2) → cmds2.all cmdTyped = true := by
  intro cmds
  induction cmds with
  | nil =>
    intro tbl tbl2 cmds2 h
    simp only [traverseList] at h
    simp at h
    obtain ⟨h1, h2⟩ := h
    subst h2
    rfl
  | cons c cs ih =>
    intro tbl tbl2 cmds2 h
    simp only [traverseList] at h
    cases htc : traverseCmd tbl c with
    | ok p =>
      obtain ⟨tblc, c2⟩ := p
      rw [htc] at h
      simp only [rbind_ok] at h
      cases htl : traverseList tblc cs with
      | ok q =>
        obtain ⟨tbll, cs2⟩ := q
        rw [htl] at h
        simp only [rbind_ok] at h
        simp at h
        obtain ⟨h1, h2⟩ := h
        subst h2
        simp [List.all_cons, traverseCmdTyped tbl c tblc c2 htc, ih tblc tbll cs2 htl]
      | err m => rw [htl] at h; simp at h
      | panicRes => rw [htl] at h; simp at h
      | nofuel => rw [htl] at h; simp at h
    | err m => rw [htc] at h; simp at h
    | panicRes => rw [htc] at h; simp at h
    | nofuel => rw [htc] at h; simp at h

/-- C6: whenever the analysis pass succeeds on a scope, every expression
node reachable in the returned tree has a present (non-absent) type
slot. -/
theorem C6_success_leaves_no_absent_slot : ∀ (scope : ScopeNode) (tbl : Table) (scope2 : ScopeNode),
    traverse scope = .ok (tbl, scope2) → scopeTyped scope2 = true := by
  intro scope tbl scope2 h
  simp only [traverse] at h
  cases htl : traverseList [] scope.commands with
  | ok q =>
    obtain ⟨tbll, cmds2⟩ := q
    rw [htl] at h
    simp only [rbind_ok] at h
    simp at h
    obtain ⟨h1, h2⟩ := h
    subst h2
    simpa [scopeTyped] using traverseListTyped scope.commands [] tbll cmds2 htl
  | err m => rw [htl] at h; simp at h
  | panicRes => rw [htl] at h; simp at h
  | nofuel => rw [htl] at h; simp at h


/-- C6, witness: the invariant applied to the one-command scope
`let x = 1;`, whose analysis succeeds and annotates the literal. -/
theorem C6_success_leaves_no_absent_slot_witness :
    traverse ⟨[.VariableDefinitionNode
      ⟨none, "x".data, some (.mk (.IntLiteralNode 1) none)⟩]⟩ =
      .ok ([("x".data, .Int)],
        ⟨[.VariableDefinitionNode
          ⟨none, "x".data, some (.mk (.IntLiteralNode 1) (some .Int))⟩]⟩) ∧
    scopeTyped ⟨[.VariableDefinitionNode
      ⟨none, "x".data, some (.mk (.IntLiteralNode 1) (some .Int))⟩]⟩ = true :=
  ⟨rfl, C6_success_leaves_no_absent_slot
    ⟨[.VariableDefinitionNode ⟨none, "x".data, some (.mk (.IntLiteralNode 1) none)⟩]⟩
    [("x".data, .Int)]
    ⟨[.VariableDefinitionNode
      ⟨none, "x".data, some (.mk (.IntLiteralNode 1) (some .Int))⟩]⟩ rfl⟩

end Hj
